import Mathlib

/-!
Verification of the storage-abstraction layer of the agent-platform repository.

The definitions below are a shallow embedding of the Python sources under
`storage-abstraction-api/src/app/`.  Conventions used throughout:

* Python floats are modelled as rationals (`ℚ`).  `numpy`'s square root
  (`np.linalg.norm`) is modelled by `ratSqrt`, which agrees with the real
  square root on every ratio of perfect squares (every concrete input used in
  this file) and, like the real square root, is zero exactly at zero and
  positive on positive inputs, so all zero-norm branch tests behave as in the
  source.
* JSON metadata / property values are modelled as opaque strings.
* A Redis keyspace, a SQL table and a Neo4j node set are modelled as lists;
  `SCAN` enumeration order, which Redis leaves unspecified, is an explicit
  argument of the Redis vector query.
* Sorting: Python's stable `list.sort(key=..., reverse=True)` and SQL
  `ORDER BY` are modelled with `List.insertionSort`, which is stable; for
  `ORDER BY` this picks one of the orders the engine may return on ties.
-/

/-- Attribute/metadata maps (JSON objects with opaque values). -/
abbrev Attrs := List (String × String)

/-- Dot product, `np.dot` on two equal-length vectors. -/
def dotList (a b : List ℚ) : ℚ := (List.zipWith (fun x y => x * y) a b).sum

/-- Square root on `ℚ`, modelling the (floating point) square root used by
`np.linalg.norm`: exact on every ratio of perfect squares, and in general
`ratSqrt q = 0 ↔ q = 0` and `0 < q → 0 < ratSqrt q` for `q ≥ 0`, which is all
the zero-norm branch tests of the source observe. -/
def ratSqrt (q : ℚ) : ℚ := (Nat.sqrt q.num.toNat : ℚ) / (Nat.sqrt q.den : ℚ)

/-- `np.linalg.norm a`: Euclidean norm. -/
def normL2 (a : List ℚ) : ℚ := ratSqrt (dotList a a)

/-- `RedisVectorAdapter._cosine_similarity` (redis_adapter.py lines 68-83):
if either vector is empty (falsy) or the lengths differ, return `0.0`;
if either norm is zero, return `0.0`; otherwise the dot product divided by the
product of the norms. -/
def cosine_similarity (a b : List ℚ) : ℚ :=
  if a = [] ∨ b = [] ∨ a.length ≠ b.length then 0
  else
    let na := normL2 a
    let nb := normL2 b
    if na = 0 ∨ nb = 0 then 0
    else dotList a b / (na * nb)

/-- One item of a vector upsert request: `VectorItem` of `schema/vector.py`
(after `model_dump`, so the `metadata` key is always present, possibly `None`). -/
structure VecItem where
  id : String
  embedding : List ℚ
  metadata : Option Attrs
deriving DecidableEq, Repr

/-- Insert-or-replace into a list by a key projection: shared shape of Redis
`HSET` (all fields rewritten) and SQL `INSERT ... ON CONFLICT (id) DO UPDATE`.
If an element with the same key exists it is replaced in place, otherwise the
new element is appended. -/
def updateOn {α : Type} (keyOf : α → String) (l : List α) (x : α) : List α :=
  if l.any (fun y => keyOf y == keyOf x) then
    l.map (fun y => if keyOf y == keyOf x then x else y)
  else l ++ [x]

/-- Value stored under one Redis document key by the Redis vector adapter:
field `embedding` = `json.dumps(item["embedding"])`, field `metadata` =
`json.dumps(item.get("metadata", {}))` (`None` round-trips as JSON `null`). -/
structure RedisDoc where
  embedding : List ℚ
  metadata : Option Attrs
deriving DecidableEq, Repr

/-- The Redis keyspace of the vector adapter: key ↦ stored hash. -/
abbrev RedisKV := List (String × RedisDoc)

/-- One scored result row: `{"id": ..., "score": ..., "metadata": ...}`
(also the row shape of the pgvector query). -/
structure QueryResult where
  id : String
  score : ℚ
  metadata : Option Attrs
deriving DecidableEq, Repr

/-- `key.split(":")[-1]`: the suffix after the last colon. -/
def lastColonSeg (s : String) : String :=
  String.mk (((s.toList).reverse.takeWhile (fun c => c ≠ ':')).reverse)

/-- Document key `f"{collection}:doc:{item['id']}"`. -/
def docKey (collection id : String) : String := collection ++ (":doc:") ++ id

/-- `RedisVectorAdapter.ensure_collection` (redis_adapter.py lines 11-14):
stores the schema hash under `collection:{name}:schema`; no index is created
and no existing schema is checked.  Schema modelled as (dim, metric). -/
def RedisVectorAdapter.ensure_collection (store : List (String × (ℕ × String)))
    (collection : String) (dim : ℕ) (metric : String) :
    List (String × (ℕ × String)) :=
  updateOn Prod.fst store ((("collection:") ++ collection ++ (":schema")), (dim, metric))

/-- `RedisVectorAdapter.upsert` (redis_adapter.py lines 16-28): one `HSET` per
item, pipelined sequentially; both fields are written, so an existing document
is fully replaced. -/
def RedisVectorAdapter.upsert (collection : String) (items : List VecItem)
    (store : RedisKV) : RedisKV :=
  items.foldl
    (fun s it => updateOn Prod.fst s (docKey collection it.id, ⟨it.embedding, it.metadata⟩))
    store

/-- `HGETALL key` against the modelled keyspace (empty hash ⇒ key absent). -/
def hgetall (store : RedisKV) (key : String) : Option RedisDoc :=
  (store.find? (fun p => p.1 == key)).map Prod.snd

/-- Scoring of one scanned key in `RedisVectorAdapter.query` (lines 40-53):
`HGETALL`, skip if empty, cosine similarity against the query embedding, id =
`key.split(":")[-1]`. -/
def scoreKey (store : RedisKV) (embedding : List ℚ) (key : String) :
    Option QueryResult :=
  (hgetall store key).map
    (fun doc => ⟨lastColonSeg key, cosine_similarity embedding doc.embedding, doc.metadata⟩)

/-- `results.sort(key=lambda x: x["score"], reverse=True)`: stable descending
sort by score. -/
def sortByScoreDesc (rs : List QueryResult) : List QueryResult :=
  List.insertionSort (fun x y => y.score ≤ x.score) rs

/-- `RedisVectorAdapter.query` (redis_adapter.py lines 30-58).  `scanKeys` is
the enumeration produced by `SCAN MATCH f"{collection}:doc:*"`, whose order
Redis does not specify.  The source keeps only the first `k` scanned keys
(`for key in keys[:k]`), scores those, sorts descending, and returns
`results[:k]`. -/
def RedisVectorAdapter.query (store : RedisKV) (scanKeys : List String)
    (embedding : List ℚ) (k : ℕ) : List QueryResult :=
  (sortByScoreDesc ((scanKeys.take k).filterMap (scoreKey store embedding))).take k

/-- What C3 (and §4.1 of the spec) says the Redis query does, written from the
spec's words for comparison: score every scanned candidate, sort descending,
return the top `k`. -/
def redisQuerySpecC3 (store : RedisKV) (scanKeys : List String)
    (embedding : List ℚ) (k : ℕ) : List QueryResult :=
  (sortByScoreDesc (scanKeys.filterMap (scoreKey store embedding))).take k

/-- A row of a pgvector collection table (pgvector_adapter.py): id (primary
key), embedding, metadata. -/
structure PgRow where
  id : String
  embedding : List ℚ
  metadata : Option Attrs
deriving DecidableEq, Repr

/-- One pgvector collection table. -/
abbrev PgTable := List PgRow

/-- `PgVectorAdapter.upsert` (pgvector_adapter.py lines 38-51): per item,
`INSERT ... ON CONFLICT (id) DO UPDATE SET embedding=..., metadata=...`
executed sequentially in one transaction. -/
def PgVectorAdapter.upsert (tbl : PgTable) (items : List VecItem) : PgTable :=
  items.foldl (fun t it => updateOn PgRow.id t ⟨it.id, it.embedding, it.metadata⟩) tbl

/-- Squared Euclidean distance; pgvector's `<->` operator orders by Euclidean
distance, and comparing squared distances gives the same order. -/
def sqDist (a b : List ℚ) : ℚ := (List.zipWith (fun x y => (x - y) * (x - y)) a b).sum

/-- pgvector's cosine distance `<=>`: `1 - dot/(‖a‖·‖b‖)`. -/
def pgCosDist (a b : List ℚ) : ℚ := 1 - dotList a b / (normL2 a * normL2 b)

/-- `PgVectorAdapter.query` (pgvector_adapter.py lines 53-61):
`SELECT id, 1 - (embedding <=> :emb) AS score, metadata FROM ...
ORDER BY embedding <-> :emb LIMIT :k` — the ordering operator is always the
Euclidean `<->`, whatever metric the collection was created with, while the
score is always the cosine similarity `1 - (embedding <=> :emb)`. -/
def PgVectorAdapter.query (tbl : PgTable) (emb : List ℚ) (k : ℕ) :
    List QueryResult :=
  ((List.insertionSort
      (fun r s => sqDist r.embedding emb ≤ sqDist s.embedding emb) tbl).take k).map
    (fun r => ⟨r.id, 1 - pgCosDist r.embedding emb, r.metadata⟩)

/-- State of one pgvector collection: the dimension baked into the
`vector(dim)` column, the operator class the HNSW index was built with, and
the rows. -/
structure PgCollection where
  dim : ℕ
  indexOps : String
  rows : PgTable
deriving DecidableEq, Repr

/-- The pgvector database: table name ↦ collection. -/
abbrev PgVecDb := List (String × PgCollection)

/-- `_METRIC_MAP` of pgvector_adapter.py lines 7-11 (unknown metrics fall back
to the cosine operator class). -/
def metricMap (metric : String) : String :=
  if metric = ("cosine") then ("vector_cosine_ops")
  else if metric = ("l2") then ("vector_l2_ops")
  else if metric = ("ip") then ("vector_ip_ops")
  else ("vector_cosine_ops")

/-- `PgVectorAdapter.ensure_collection` (pgvector_adapter.py lines 17-36):
`CREATE TABLE IF NOT EXISTS` + `CREATE INDEX IF NOT EXISTS` — if the table
already exists both statements do nothing, whatever `dim` or `metric` was
requested; the adapter performs no compatibility check and can only fail at
the engine level, so it is modelled as always returning `.ok`. -/
def PgVectorAdapter.ensure_collection (db : PgVecDb) (collection : String)
    (dim : ℕ) (metric : String) : Except String PgVecDb :=
  if db.any (fun p => p.1 == collection) then .ok db
  else .ok (db ++ [(collection, ⟨dim, metricMap metric, []⟩)])

/-- One row of the `messages` table of the Postgres chat adapter
(postgres_adapter.py lines 19-27); `ts` is modelled as a natural number. -/
structure PgMessage where
  thread_id : String
  tenant : String
  ts : ℕ
  role : String
  content : String
deriving DecidableEq, Repr

/-- The Postgres chat database: the `threads` table (id, tenant) and the
`messages` table. -/
structure PgChatDb where
  threads : List (String × String)
  messages : List PgMessage
deriving DecidableEq, Repr

/-- A `(ts, role, content)` row as returned by the chat `list` SELECT. -/
structure ChatRow where
  ts : ℕ
  role : String
  content : String
deriving DecidableEq, Repr

/-- `PostgresChatAdapter.append` (postgres_adapter.py lines 37-50):
`INSERT INTO threads ... ON CONFLICT (id) DO NOTHING` then one INSERT into
`messages`; `ts` is the caller's value or the server clock (`now()`),
resolved by the routing layer model below. -/
def PostgresChatAdapter.append (db : PgChatDb) (thread_id tenant role content : String)
    (ts : ℕ) : PgChatDb :=
  { threads :=
      if db.threads.any (fun p => p.1 == thread_id) then db.threads
      else db.threads ++ [(thread_id, tenant)]
    messages := db.messages ++ [⟨thread_id, tenant, ts, role, content⟩] }

/-- `PostgresChatAdapter.list` (postgres_adapter.py lines 52-58):
`SELECT ts, role, content FROM messages WHERE thread_id=:tid
ORDER BY ts DESC LIMIT :lim` — the tenant column is not part of the WHERE
clause. -/
def PostgresChatAdapter.list (db : PgChatDb) (thread_id : String) (limit : ℕ) :
    List ChatRow :=
  (((db.messages.filter (fun m => m.thread_id == thread_id)).insertionSort
      (fun m1 m2 => m2.ts ≤ m1.ts)).take limit).map
    (fun m => ⟨m.ts, m.role, m.content⟩)

/-- `PostgresChatAdapter.truncate` (postgres_adapter.py lines 60-65):
"Simple impl: delete all for now" — `DELETE FROM messages WHERE
thread_id=:tid`, ignoring `keep_last_n`; returns the rowcount. -/
def PostgresChatAdapter.truncate (db : PgChatDb) (thread_id : String)
    (_keepLastN : ℕ) : ℕ × PgChatDb :=
  ((db.messages.filter (fun m => m.thread_id == thread_id)).length,
   { db with messages := db.messages.filter (fun m => !(m.thread_id == thread_id)) })

/-- One message as stored (JSON-serialised) in a Redis chat list
(chat/redis_adapter.py lines 12-17). -/
structure RMsg where
  role : String
  content : String
  ts : ℕ
  tenant : String
deriving DecidableEq, Repr

/-- The Redis chat keyspace: key `chat:thread:{tid}:messages` ↦ list, head =
newest (LPUSH). -/
abbrev RedisChatKV := List (String × List RMsg)

/-- Key `f"chat:thread:{thread_id}:messages"`. -/
def chatKey (thread_id : String) : String :=
  ("chat:thread:") ++ thread_id ++ (":messages")

/-- The list stored at a key (`LRANGE key 0 -1`); a missing key reads as the
empty list, as in Redis. -/
def chatMsgs (store : RedisChatKV) (thread_id : String) : List RMsg :=
  ((store.find? (fun p => p.1 == chatKey thread_id)).map Prod.snd).getD []

/-- `LPUSH`: cons onto the stored list, creating the key if absent. -/
def lpushMsg (store : RedisChatKV) (key : String) (m : RMsg) : RedisChatKV :=
  if store.any (fun p => p.1 == key) then
    store.map (fun p => if p.1 == key then (p.1, m :: p.2) else p)
  else store ++ [(key, [m])]

/-- `RedisChatAdapter.append` (chat/redis_adapter.py lines 10-21). -/
def RedisChatAdapter.append (store : RedisChatKV) (thread_id : String) (m : RMsg) :
    RedisChatKV :=
  lpushMsg store (chatKey thread_id) m

/-- `RedisChatAdapter.list` (chat/redis_adapter.py lines 23-41):
`LRANGE key 0 (limit-1)`, i.e. the first `limit` stored (newest-first)
messages. -/
def RedisChatAdapter.list (store : RedisChatKV) (thread_id : String) (limit : ℕ) :
    List RMsg :=
  (chatMsgs store thread_id).take limit

/-- `RedisChatAdapter.truncate` (chat/redis_adapter.py lines 43-58):
`keep_last_n = 0` ⇒ `LLEN` + `DEL`, returning the old length; otherwise
`LTRIM key 0 (keep_last_n - 1)` when the list is longer than `keep_last_n`,
returning the difference, else 0. -/
def RedisChatAdapter.truncate (store : RedisChatKV) (thread_id : String)
    (keepLastN : ℕ) : ℕ × RedisChatKV :=
  let key := chatKey thread_id
  if keepLastN = 0 then
    ((chatMsgs store thread_id).length, store.filter (fun p => !(p.1 == key)))
  else
    let currentLen := (chatMsgs store thread_id).length
    if keepLastN < currentLen then
      (currentLen - keepLastN,
       store.map (fun p => if p.1 == key then (p.1, p.2.take keepLastN) else p))
    else (0, store)

/-- A Neo4j node: a single label `Entity` and a property map; the properties
written by `upsert_entity` are `id`, `tenant`, `type` plus the caller's
`props`. -/
structure GNode where
  props : Attrs
deriving DecidableEq, Repr

/-- A Neo4j relationship: endpoint node indices into the node list, a type,
and a property map. -/
structure GEdge where
  srcIdx : ℕ
  dstIdx : ℕ
  relType : String
  props : Attrs
deriving DecidableEq, Repr

/-- The Neo4j store. -/
structure GraphDb where
  nodes : List GNode
  edges : List GEdge
deriving DecidableEq, Repr

/-- Property-map merge, Cypher `n += $props`: each key of `upd` is written
into `base`. -/
def attrsMerge (base upd : Attrs) : Attrs :=
  upd.foldl (fun b kv => updateOn Prod.fst b kv) base

/-- Property lookup on a node. -/
def propOf (n : GNode) (key : String) : Option String :=
  (n.props.find? (fun p => p.1 == key)).map Prod.snd

/-- `Neo4jAdapter.upsert_entity` (neo4j_adapter.py lines 8-11):
`MERGE (e:Entity {id:$id, tenant:$tenant}) ON MATCH SET e += $props
ON CREATE SET e.type=$type, e += $props`. -/
def Neo4jAdapter.upsert_entity (g : GraphDb) (id tenant ty : String)
    (props : Attrs) : GraphDb :=
  let isHit := fun n => propOf n ("id") == some id && propOf n ("tenant") == some tenant
  if g.nodes.any isHit then
    { g with nodes := g.nodes.map (fun n => if isHit n then ⟨attrsMerge n.props props⟩ else n) }
  else
    { g with nodes := g.nodes ++
        [⟨attrsMerge [(("id"), id), (("tenant"), tenant), (("type"), ty)] props⟩] }

/-- Edge merge for one matched endpoint pair: `MERGE (a)-[r:T]->(b) SET r += props`. -/
def mergeEdge (edges : List GEdge) (src dst : ℕ) (rel : String) (props : Attrs) :
    List GEdge :=
  let isHit := fun e : GEdge => e.srcIdx == src && e.dstIdx == dst && e.relType == rel
  if edges.any isHit then
    edges.map (fun e => if isHit e then { e with props := attrsMerge e.props props } else e)
  else edges ++ [⟨src, dst, rel, attrsMerge [] props⟩]

/-- `Neo4jAdapter.relate` (neo4j_adapter.py lines 13-16):
`MATCH (a:Entity{id:$src}),(b:Entity{id:$dst}) MERGE (a)-[r:T]->(b)
SET r += $props` — endpoints are matched by `id` alone (any tenant), over the
cartesian product of matches; no match ⇒ no edge (silent no-op). -/
def Neo4jAdapter.relate (g : GraphDb) (src dst rel : String) (props : Attrs) :
    GraphDb :=
  let idxs := fun wanted : String =>
    (List.range g.nodes.length).filter
      (fun i => ((g.nodes.get? i).map (fun n => propOf n ("id") == some wanted)).getD false)
  let pairs := (idxs src).foldr (fun a acc => ((idxs dst).map (fun b => (a, b))) ++ acc) []
  { g with edges := pairs.foldl (fun es ab => mergeEdge es ab.1 ab.2 rel props) g.edges }

/-- First-occurrence deduplication, Cypher `DISTINCT`. -/
def distinctFirst {α : Type} [DecidableEq α] (l : List α) : List α :=
  l.foldl (fun acc x => if x ∈ acc then acc else acc ++ [x]) []

/-- A `{n.id AS id, labels(n) AS labels}` row of the neighbors query. -/
structure NeighborRow where
  id : Option String
  labels : List String
deriving DecidableEq, Repr

/-- `Neo4jAdapter.neighbors` (neo4j_adapter.py lines 18-33):
`MATCH (a:Entity{id:$id})-[r]-(n) RETURN DISTINCT n.id, labels(n) LIMIT 100`
— `a` is matched by `id` alone (any tenant), the pattern is undirected, and
no relation type is constrained by the router (it always calls with
`rel_type=None`). -/
def Neo4jAdapter.neighbors (g : GraphDb) (node_id : String)
    (rel_type : Option String) : List NeighborRow :=
  let aIdxs := (List.range g.nodes.length).filter
      (fun i => ((g.nodes.get? i).map (fun n => propOf n ("id") == some node_id)).getD false)
  let relOk := fun e : GEdge => match rel_type with
    | none => true
    | some rt => e.relType == rt
  let otherEnds := g.edges.flatMap (fun e =>
    if relOk e then
      (if aIdxs.contains e.srcIdx then [e.dstIdx] else []) ++
      (if aIdxs.contains e.dstIdx then [e.srcIdx] else [])
    else [])
  (distinctFirst (otherEnds.filterMap (fun i =>
      (g.nodes.get? i).map (fun n => NeighborRow.mk (propOf n ("id")) [("Entity")])))).take 100

/-- `"Bearer ".startswith` test: `authorization.startswith("Bearer ")`. -/
def pythonStartsWith (pre s : String) : Bool :=
  pre.toList.isPrefixOf s.toList

/-- `authorization.split(" ", 1)[1]`: everything after the first space
(defined when a space exists, which the `startswith` guard ensures). -/
def afterFirstSpace (s : String) : String :=
  String.mk ((s.toList.dropWhile (fun c => c ≠ ' ')).drop 1)

/-- `require_api_key` (deps.py lines 35-40): `HTTPException(401)` when the
header is missing, empty (falsy) or does not start with `"Bearer "`;
`HTTPException(403)` when the extracted token differs from the configured
secret; returns the raised exception as `some (status, detail)`. -/
def require_api_key (authorization : Option String) (apiKey : String) :
    Option (ℕ × String) :=
  match authorization with
  | none => some (401, ("Missing bearer token"))
  | some a =>
    if a = ("") ∨ pythonStartsWith ("Bearer ") a = false then
      some (401, ("Missing bearer token"))
    else if afterFirstSpace a ≠ apiKey then some (403, ("Invalid API key"))
    else none

/-- `get_tenant_key` (deps.py lines 32-33): `x_tenant_id or "public"` — a
missing or empty header resolves to `public`. -/
def get_tenant_key (xTenantId : Option String) : String :=
  match xTenantId with
  | none => ("public")
  | some t => if t = ("") then ("public") else t

/-- The whole backend state behind the HTTP surface, with the adapters
`deps.py` actually constructs (PgVectorAdapter, PostgresChatAdapter,
Neo4jAdapter); `clock` models the engine's `now()` used when a chat append
carries no timestamp. -/
structure AppState where
  vec : PgVecDb
  chat : PgChatDb
  graph : GraphDb
  clock : ℕ
deriving DecidableEq, Repr

/-- The bodies of the eight `/v1/*` routes (routers/vector.py, routers/chat.py,
routers/graph.py). -/
inductive V1Req where
  | vectorPut (collection : String) (dim : ℕ) (metric : String)
  | vectorUpsert (collection : String) (items : List VecItem)
  | vectorQuery (collection : String) (embedding : List ℚ) (k : ℕ)
  | chatAppend (thread_id role content : String) (ts : Option ℕ)
  | chatList (thread_id : String) (limit : ℕ)
  | graphEntities (id ty : String) (props : Attrs)
  | graphRelations (src_id dst_id rel_type : String) (props : Attrs)
  | graphNeighbors (node_id : String)
deriving DecidableEq, Repr

/-- Successful response payloads of the `/v1/*` routes. -/
inductive V1Resp where
  | okTrue
  | vecResults (rs : List QueryResult)
  | chatMessages (ms : List ChatRow)
  | neighborRows (ns : List NeighborRow)
deriving DecidableEq, Repr

/-- Request-body validation as pydantic performs it (schema/vector.py,
routers/chat.py): `VectorItem.embedding` carries `Field(min_length=8)`, the
chat list `limit` carries `Query(le=500)` — and nothing else is length- or
range-checked; in particular `VectorQueryRequest.embedding`
(schema/vector.py lines 12-16) has no `min_length`. -/
def validateBody : V1Req → Option (ℕ × String)
  | .vectorUpsert _ items =>
      if items.any (fun i => i.embedding.length < 8) then
        some (422, ("embedding shorter than 8"))
      else none
  | .chatList _ limit =>
      if 500 < limit then some (422, ("limit above 500")) else none
  | _ => none

/-- Collection lookup in the pgvector database. -/
def lookupColl (db : PgVecDb) (name : String) : Option PgCollection :=
  (db.find? (fun p => p.1 == name)).map Prod.snd

/-- Replace a collection's state in the pgvector database. -/
def setColl (db : PgVecDb) (name : String) (c : PgCollection) : PgVecDb :=
  db.map (fun p => if p.1 == name then (p.1, c) else p)

/-- The route handlers after auth, validation and tenant resolution
(routers/vector.py, routers/chat.py, routers/graph.py): vector collection
names are prefixed `f"{tenant}:{collection}"`; the chat router stores the
tenant on append but passes the *unscoped* `thread_id` to `list`; the graph
router stores the tenant on entity upsert but calls `relate` and `neighbors`
with raw ids.  Engine-level failures (a vector operation against a missing
table, or an embedding whose length differs from the `vector(dim)` column)
surface as a 500 `BackendError`. -/
def dispatch (tenant : String) (req : V1Req) (st : AppState) :
    AppState × Except (ℕ × String) V1Resp :=
  match req with
  | .vectorPut c dim metric =>
      match PgVectorAdapter.ensure_collection st.vec (tenant ++ (":") ++ c) dim metric with
      | .ok vec2 => ({ st with vec := vec2 }, .ok .okTrue)
      | .error e => (st, .error (500, e))
  | .vectorUpsert c items =>
      let name := tenant ++ (":") ++ c
      match lookupColl st.vec name with
      | none => (st, .error (500, ("relation does not exist")))
      | some coll =>
          if items.any (fun i => i.embedding.length ≠ coll.dim) then
            (st, .error (500, ("expected vector dimension mismatch")))
          else
            let coll2 := { coll with rows := PgVectorAdapter.upsert coll.rows items }
            ({ st with vec := setColl st.vec name coll2 }, .ok .okTrue)
  | .vectorQuery c emb k =>
      let name := tenant ++ (":") ++ c
      match lookupColl st.vec name with
      | none => (st, .error (500, ("relation does not exist")))
      | some coll =>
          if emb.length ≠ coll.dim then
            (st, .error (500, ("expected vector dimension mismatch")))
          else (st, .ok (.vecResults (PgVectorAdapter.query coll.rows emb k)))
  | .chatAppend tid role content ts =>
      let t := ts.getD st.clock
      ({ st with chat := PostgresChatAdapter.append st.chat tid tenant role content t,
                 clock := st.clock + 1 },
       .ok .okTrue)
  | .chatList tid limit =>
      (st, .ok (.chatMessages (PostgresChatAdapter.list st.chat tid limit)))
  | .graphEntities id ty props =>
      ({ st with graph := Neo4jAdapter.upsert_entity st.graph id tenant ty props },
       .ok .okTrue)
  | .graphRelations src dst rel props =>
      ({ st with graph := Neo4jAdapter.relate st.graph src dst rel props }, .ok .okTrue)
  | .graphNeighbors nid =>
      (st, .ok (.neighborRows (Neo4jAdapter.neighbors st.graph nid none)))

/-- One `/v1/*` request through the app (main.py lines 11-14): every router is
included with `dependencies=[Depends(require_api_key)]`, so the bearer check
runs first and a failure short-circuits before body validation, tenant
resolution, or any handler/adapter call; then pydantic validation, then the
tenant-resolving handler. -/
def v1Handle (authorization : Option String) (apiKey : String)
    (xTenantId : Option String) (req : V1Req) (st : AppState) :
    AppState × Except (ℕ × String) V1Resp :=
  match require_api_key authorization apiKey with
  | some e => (st, .error e)
  | none =>
    match validateBody req with
    | some e => (st, .error e)
    | none => dispatch (get_tenant_key xTenantId) req st

lemma dotList_self_nonneg (a : List ℚ) : 0 ≤ dotList a a := by
  induction a with
  | nil => simp [dotList]
  | cons x xs ih =>
    have hx : 0 ≤ x * x := mul_self_nonneg x
    simpa [dotList, List.zipWith] using add_nonneg hx (by simpa [dotList] using ih)

lemma ratSqrt_zero : ratSqrt 0 = 0 := by
  simp [ratSqrt]

lemma ratSqrt_pos {q : ℚ} (h : 0 < q) : 0 < ratSqrt q := by
  have hnum : 0 < q.num := Rat.num_pos.mpr h
  have h1 : 0 < Nat.sqrt q.num.toNat := by
    rw [Nat.sqrt_pos]
    omega
  have h2 : 0 < Nat.sqrt q.den := by
    rw [Nat.sqrt_pos]
    exact q.den_pos
  exact div_pos (by exact_mod_cast h1) (by exact_mod_cast h2)

lemma normL2_eq_zero_iff (a : List ℚ) : normL2 a = 0 ↔ dotList a a = 0 := by
  constructor
  · intro h
    by_contra hne
    have hpos : 0 < dotList a a := lt_of_le_of_ne (dotList_self_nonneg a) (Ne.symm hne)
    exact absurd h (ne_of_gt (by simpa [normL2] using ratSqrt_pos hpos))
  · intro h
    simp [normL2, h, ratSqrt_zero]

lemma find?_updateOn {β : Type} (store : List (String × β)) (k : String) (v : β) :
    (updateOn Prod.fst store (k, v)).find? (fun p => p.1 == k) = some (k, v) := by
  unfold updateOn
  by_cases h : store.any (fun y => y.1 == k)
  · simp only [h, if_true]
    rw [List.find?_map]
    have hcomp : ((fun p : String × β => p.1 == k) ∘ fun y : String × β =>
        if y.1 == (k, v).1 then (k, v) else y) = fun y : String × β => y.1 == k := by
      funext y
      by_cases hy : y.1 = k
      · simp [Function.comp, hy]
      · simp [Function.comp, hy]
    rw [hcomp]
    rcases List.any_eq_true.mp h with ⟨w, hw, hwk⟩
    have hsome : (store.find? (fun y => y.1 == k)).isSome := List.find?_isSome.mpr ⟨w, hw, hwk⟩
    rcases Option.isSome_iff_exists.mp hsome with ⟨u, hu⟩
    have huk : u.1 = k := by simpa using List.find?_some hu
    rw [hu]
    simp [huk]
  · rw [if_neg (by simpa using h)]
    rw [List.find?_append]
    have hnone : store.find? (fun p => p.1 == k) = none := by
      rw [List.find?_eq_none]
      intro z hz hzk
      exact h (List.any_eq_true.mpr ⟨z, hz, hzk⟩)
    rw [hnone]
    simp

lemma filter_key_singleton {α : Type} (keyOf : α → String) (l : List α) (x : α)
    (h : (l.map keyOf).Nodup) (hany : l.any (fun y => keyOf y == keyOf x)) :
    ∃ w, l.filter (fun y => keyOf y == keyOf x) = [w] ∧ keyOf w = keyOf x := by
  induction l with
  | nil => simp at hany
  | cons a as ih =>
    rcases List.nodup_cons.mp h with ⟨hnotin, has⟩
    by_cases hk : keyOf a = keyOf x
    · refine ⟨a, ?_, hk⟩
      have hall : ∀ z ∈ as, ¬ (keyOf z == keyOf x) = true := by
        intro z hz hzk
        apply hnotin
        have h1 : keyOf z = keyOf x := by simpa using hzk
        have h2 : keyOf z = keyOf a := h1.trans hk.symm
        exact h2 ▸ List.mem_map_of_mem keyOf hz
      rw [List.filter_cons_of_pos (by simp [hk]), List.filter_eq_nil_iff.mpr hall]
    · have hany2 : as.any (fun y => keyOf y == keyOf x) := by
        rcases List.any_eq_true.mp hany with ⟨z, hz, hzk⟩
        rcases List.mem_cons.mp hz with rfl | hz2
        · exact absurd (by simpa using hzk) hk
        · exact List.any_eq_true.mpr ⟨z, hz2, hzk⟩
      rcases ih has hany2 with ⟨w, hw, hwk⟩
      exact ⟨w, by rw [List.filter_cons_of_neg (by simp [hk]), hw], hwk⟩

lemma updateOn_filter_eq {α : Type} (keyOf : α → String) (l : List α) (x : α)
    (h : (l.map keyOf).Nodup) :
    (updateOn keyOf l x).filter (fun y => keyOf y == keyOf x) = [x] := by
  unfold updateOn
  by_cases hany : l.any (fun y => keyOf y == keyOf x)
  · simp only [hany, if_true]
    rw [List.filter_map]
    have hcomp : ((fun y => keyOf y == keyOf x) ∘ fun y => if keyOf y == keyOf x then x else y)
        = fun y => keyOf y == keyOf x := by
      funext y
      by_cases hy : keyOf y = keyOf x
      · simp [Function.comp, hy]
      · simp [Function.comp, hy]
    rw [hcomp]
    rcases filter_key_singleton keyOf l x h hany with ⟨w, hw, hwk⟩
    rw [hw]
    simp [hwk]
  · rw [if_neg (by simpa using hany)]
    rw [List.filter_append]
    have h1 : l.filter (fun y => keyOf y == keyOf x) = [] := by
      apply List.filter_eq_nil_iff.mpr
      intro z hz hzk
      exact hany (List.any_eq_true.mpr ⟨z, hz, hzk⟩)
    rw [h1]
    simp

lemma updateOn_keys_nodup {α : Type} (keyOf : α → String) (l : List α) (x : α)
    (h : (l.map keyOf).Nodup) :
    ((updateOn keyOf l x).map keyOf).Nodup := by
  unfold updateOn
  by_cases hany : l.any (fun y => keyOf y == keyOf x)
  · simp only [hany, if_true]
    have hmap : (l.map (fun y => if keyOf y == keyOf x then x else y)).map keyOf = l.map keyOf := by
      rw [List.map_map]
      apply List.map_congr_left
      intro z _
      by_cases hz : keyOf z = keyOf x
      · simp [Function.comp, hz]
      · simp [Function.comp, hz]
    rw [hmap]
    exact h
  · simp only [hany, if_false]
    have hnotin : keyOf x ∉ l.map keyOf := by
      intro hmem
      rcases List.mem_map.mp hmem with ⟨z, hz, hzk⟩
      exact hany (List.any_eq_true.mpr ⟨z, hz, by simp [hzk]⟩)
    simpa [List.map_append] using (List.nodup_append.mpr ⟨h, by simp, by
      intro y hy
      simp only [List.mem_singleton]
      intro hx
      exact hnotin (hx ▸ hy)⟩)

/-- C10: the Redis vector adapter's `_cosine_similarity` helper is total and
never divides by zero — with empty inputs, mismatched lengths, or a
zero-norm input it returns `0.0`, and otherwise it returns the dot product
divided by the product of the two norms, both of which are then nonzero
(stated multiplicatively, which is exactly the no-division-by-zero content). -/
theorem cosine_similarity_total (a b : List ℚ) :
    (a = [] ∨ b = [] ∨ a.length ≠ b.length → cosine_similarity a b = 0)
    ∧ (dotList a a = 0 ∨ dotList b b = 0 → cosine_similarity a b = 0)
    ∧ (a ≠ [] → b ≠ [] → a.length = b.length → dotList a a ≠ 0 → dotList b b ≠ 0 →
        normL2 a ≠ 0 ∧ normL2 b ≠ 0 ∧
        cosine_similarity a b * (normL2 a * normL2 b) = dotList a b) := by
  refine ⟨?_, ?_, ?_⟩
  · intro h
    simp [cosine_similarity, h]
  · intro h
    by_cases hg : a = [] ∨ b = [] ∨ a.length ≠ b.length
    · simp [cosine_similarity, hg]
    · have hz : normL2 a = 0 ∨ normL2 b = 0 := by
        rcases h with h | h
        · exact Or.inl ((normL2_eq_zero_iff a).mpr h)
        · exact Or.inr ((normL2_eq_zero_iff b).mpr h)
      simp only [cosine_similarity, hg, if_false]
      simp [hz]
  · intro ha hb hlen hda hdb
    have hna : normL2 a ≠ 0 := fun h => hda ((normL2_eq_zero_iff a).mp h)
    have hnb : normL2 b ≠ 0 := fun h => hdb ((normL2_eq_zero_iff b).mp h)
    refine ⟨hna, hnb, ?_⟩
    have hg : ¬ (a = [] ∨ b = [] ∨ a.length ≠ b.length) := by
      simp [ha, hb, hlen]
    have hz : ¬ (normL2 a = 0 ∨ normL2 b = 0) := by
      simp [hna, hnb]
    simp only [cosine_similarity, hg, if_false, hz]
    exact div_mul_cancel₀ _ (mul_ne_zero hna hnb)

/-- C10 witness: concrete instances of each branch — `[3,4]` against the
zero vector scores 0, and against `[4,3]` the score times the norm product
recovers the dot product with nonzero norms. -/
theorem cosine_similarity_total_witness :
    cosine_similarity [] [(1 : ℚ)] = 0
    ∧ cosine_similarity [(3 : ℚ), 4] [0, 0] = 0
    ∧ (normL2 [(3 : ℚ), 4] ≠ 0 ∧ normL2 [(4 : ℚ), 3] ≠ 0 ∧
        cosine_similarity [(3 : ℚ), 4] [4, 3] * (normL2 [(3 : ℚ), 4] * normL2 [(4 : ℚ), 3])
          = dotList [(3 : ℚ), 4] [4, 3]) :=
  ⟨(cosine_similarity_total [] [(1 : ℚ)]).1 (Or.inl rfl),
   (cosine_similarity_total [(3 : ℚ), 4] [0, 0]).2.1 (Or.inr (by norm_num [dotList])),
   (cosine_similarity_total [(3 : ℚ), 4] [4, 3]).2.2 (by simp) (by simp) (by simp)
     (by norm_num [dotList]) (by norm_num [dotList])⟩

/-- C9: upsert is idempotent by identifier for both vector adapters — under
the primary-key/keyspace invariant (no duplicate ids), two upserts of the
same id leave exactly one stored item with that id, carrying the second
upsert's embedding and metadata (full replace, not merge). -/
theorem upsert_replaces_by_id (tbl : PgTable) (store : RedisKV) (coll id : String)
    (e1 e2 : List ℚ) (m1 m2 : Option Attrs)
    (hpg : (tbl.map PgRow.id).Nodup) (hkv : (store.map Prod.fst).Nodup) :
    (PgVectorAdapter.upsert (PgVectorAdapter.upsert tbl [⟨id, e1, m1⟩]) [⟨id, e2, m2⟩]).filter
        (fun r => r.id == id) = [⟨id, e2, m2⟩]
    ∧ (RedisVectorAdapter.upsert coll [⟨id, e2, m2⟩]
          (RedisVectorAdapter.upsert coll [⟨id, e1, m1⟩] store)).filter
        (fun p => p.1 == docKey coll id) = [(docKey coll id, ⟨e2, m2⟩)] := by
  constructor
  · have h1 : ((updateOn PgRow.id tbl ⟨id, e1, m1⟩).map PgRow.id).Nodup :=
      updateOn_keys_nodup PgRow.id tbl ⟨id, e1, m1⟩ hpg
    have h2 := updateOn_filter_eq PgRow.id (updateOn PgRow.id tbl ⟨id, e1, m1⟩)
      (⟨id, e2, m2⟩ : PgRow) h1
    simpa [PgVectorAdapter.upsert] using h2
  · have h1 : ((updateOn Prod.fst store (docKey coll id, (⟨e1, m1⟩ : RedisDoc))).map
        Prod.fst).Nodup :=
      updateOn_keys_nodup Prod.fst store (docKey coll id, ⟨e1, m1⟩) hkv
    have h2 := updateOn_filter_eq Prod.fst
      (updateOn Prod.fst store (docKey coll id, (⟨e1, m1⟩ : RedisDoc)))
      (docKey coll id, (⟨e2, m2⟩ : RedisDoc)) h1
    simpa [RedisVectorAdapter.upsert] using h2

/-- C9 witness: both adapters at a concrete input — two upserts of id `a`
into empty stores leave exactly the second item. -/
theorem upsert_replaces_by_id_witness :
    (PgVectorAdapter.upsert (PgVectorAdapter.upsert [] [⟨("a"), [1], none⟩])
        [⟨("a"), [2], some [(("k"), ("v"))]⟩]).filter
      (fun r => r.id == ("a")) = [⟨("a"), [2], some [(("k"), ("v"))]⟩]
    ∧ (RedisVectorAdapter.upsert ("c") [⟨("a"), [2], some [(("k"), ("v"))]⟩]
          (RedisVectorAdapter.upsert ("c") [⟨("a"), [1], none⟩] [])).filter
      (fun p => p.1 == docKey ("c") ("a")) =
        [(docKey ("c") ("a"), ⟨[2], some [(("k"), ("v"))]⟩)] :=
  upsert_replaces_by_id [] [] ("c") ("a") [1] [2] none (some [(("k"), ("v"))])
    (by simp) (by simp)

/-- C8: neither vector adapter verifies dimensionality in `ensure_collection`
and there is no `ConfigurationError` anywhere — a call against an existing
collection with a different `dim` succeeds and leaves the existing table,
with its original dimension, unchanged. -/
theorem ensure_collection_no_config_error :
    PgVectorAdapter.ensure_collection
        [(("t"), ⟨3, ("vector_cosine_ops"), []⟩)] ("t") 4 ("l2")
      = .ok [(("t"), ⟨3, ("vector_cosine_ops"), []⟩)]
    ∧ lookupColl [(("t"), ⟨3, ("vector_cosine_ops"), []⟩)] ("t")
      = some ⟨3, ("vector_cosine_ops"), []⟩
    ∧ (3 : ℕ) ≠ 4 := by
  refine ⟨?_, ?_, by decide⟩
  · simp [PgVectorAdapter.ensure_collection]
  · simp [lookupColl, List.find?]

/-- C8 (amended): `ensure_collection` is an idempotent create-if-absent that
never fails and never checks compatibility — on the pg adapter an existing
collection (whatever its dimension) is returned unchanged and a missing one
is created empty with the requested dim and metric opclass; the Redis adapter
unconditionally overwrites the stored schema hash. -/
theorem ensure_collection_create_or_ignore (db : PgVecDb) (store : List (String × (ℕ × String)))
    (name coll metric : String) (dim : ℕ) :
    (∀ c, lookupColl db name = some c →
        PgVectorAdapter.ensure_collection db name dim metric = .ok db)
    ∧ (lookupColl db name = none →
        PgVectorAdapter.ensure_collection db name dim metric
          = .ok (db ++ [(name, ⟨dim, metricMap metric, []⟩)]))
    ∧ ((RedisVectorAdapter.ensure_collection store coll dim metric).find?
          (fun p => p.1 == (("collection:") ++ coll ++ (":schema"))))
        = some ((("collection:") ++ coll ++ (":schema")), (dim, metric)) := by
  refine ⟨?_, ?_, ?_⟩
  · intro c hc
    rw [lookupColl] at hc
    rcases Option.map_eq_some'.mp hc with ⟨u, hu, _⟩
    have hp : (u.1 == name) = true := by simpa using List.find?_some hu
    have hany : db.any (fun p => p.1 == name) :=
      List.any_eq_true.mpr ⟨u, List.mem_of_find?_eq_some hu, hp⟩
    simp [PgVectorAdapter.ensure_collection, hany]
  · intro hc
    have hnone : ¬ db.any (fun p => p.1 == name) := by
      intro hany
      rcases List.any_eq_true.mp hany with ⟨w, hw, hwk⟩
      have : (db.find? (fun p => p.1 == name)).isSome := List.find?_isSome.mpr ⟨w, hw, hwk⟩
      rcases Option.isSome_iff_exists.mp this with ⟨u, hu⟩
      rw [lookupColl, hu] at hc
      simp at hc
    simp [PgVectorAdapter.ensure_collection, hnone]
  · exact find?_updateOn store _ (dim, metric)

/-- C8 witness: a dim-3 collection survives an `ensure_collection` with dim 4
unchanged, a fresh name is created, and the Redis schema hash is written. -/
theorem ensure_collection_create_or_ignore_witness :
    PgVectorAdapter.ensure_collection
        [(("t"), ⟨3, ("vector_cosine_ops"), []⟩)] ("t") 4 ("l2")
      = .ok [(("t"), ⟨3, ("vector_cosine_ops"), []⟩)]
    ∧ PgVectorAdapter.ensure_collection [] ("u") 4 ("l2")
      = .ok [(("u"), ⟨4, metricMap ("l2"), []⟩)]
    ∧ ((RedisVectorAdapter.ensure_collection [] ("d") 4 ("l2")).find?
          (fun p => p.1 == (("collection:") ++ ("d") ++ (":schema"))))
        = some ((("collection:") ++ ("d") ++ (":schema")), (4, ("l2"))) :=
  ⟨(ensure_collection_create_or_ignore
      [(("t"), ⟨3, ("vector_cosine_ops"), []⟩)] [] ("t") ("d") ("l2") 4).1
      ⟨3, ("vector_cosine_ops"), []⟩ (by simp [lookupColl, List.find?]),
   (ensure_collection_create_or_ignore [] [] ("u") ("d") ("l2") 4).2.1
      (by simp [lookupColl]),
   (ensure_collection_create_or_ignore [] [] ("u") ("d") ("l2") 4).2.2⟩

/-- C6: on every `/v1/*` route, a missing or malformed (non-`Bearer `)
Authorization header yields 401 and a well-formed bearer token different from
the configured secret yields 403 — in both cases the backend state is
returned untouched, i.e. no adapter operation runs. -/
theorem auth_gate_rejects_before_dispatch (authorization : Option String)
    (apiKey : String) (xTenantId : Option String) (req : V1Req) (st : AppState) :
    (authorization = none →
        v1Handle authorization apiKey xTenantId req st
          = (st, .error (401, ("Missing bearer token"))))
    ∧ (∀ a, authorization = some a → pythonStartsWith ("Bearer ") a = false →
        v1Handle authorization apiKey xTenantId req st
          = (st, .error (401, ("Missing bearer token"))))
    ∧ (∀ a, authorization = some a → pythonStartsWith ("Bearer ") a = true →
        afterFirstSpace a ≠ apiKey →
        v1Handle authorization apiKey xTenantId req st
          = (st, .error (403, ("Invalid API key")))) := by
  refine ⟨?_, ?_, ?_⟩
  · intro h
    subst h
    simp [v1Handle, require_api_key]
  · intro a ha hpre
    subst ha
    simp [v1Handle, require_api_key, hpre]
  · intro a ha hpre htok
    subst ha
    have hne : ¬ a = ("") := by
      intro h
      subst h
      simp [pythonStartsWith] at hpre
    simp [v1Handle, require_api_key, hne, hpre, htok]

/-- C6 witness: a missing header and a wrong token on the chat-list route,
against a nonempty state, are rejected 401/403 with the state unchanged. -/
theorem auth_gate_rejects_before_dispatch_witness :
    v1Handle none ("secret") none (.chatList ("t") 50)
        ⟨[], ⟨[], []⟩, ⟨[], []⟩, 0⟩
      = (⟨[], ⟨[], []⟩, ⟨[], []⟩, 0⟩, .error (401, ("Missing bearer token")))
    ∧ v1Handle (some ("Bearer wrong")) ("secret") none (.chatList ("t") 50)
        ⟨[], ⟨[], []⟩, ⟨[], []⟩, 0⟩
      = (⟨[], ⟨[], []⟩, ⟨[], []⟩, 0⟩, .error (403, ("Invalid API key"))) :=
  ⟨(auth_gate_rejects_before_dispatch none ("secret") none (.chatList ("t") 50)
      ⟨[], ⟨[], []⟩, ⟨[], []⟩, 0⟩).1 rfl,
   (auth_gate_rejects_before_dispatch (some ("Bearer wrong")) ("secret") none
      (.chatList ("t") 50) ⟨[], ⟨[], []⟩, ⟨[], []⟩, 0⟩).2.2 ("Bearer wrong") rfl
      (by decide) (by decide)⟩

/-- C1: tenant isolation fails for the chat (and graph) reads — after tenant
`tenantB` appends a message to thread `t` through the full authenticated
pipeline, tenant `tenantA` listing the same thread id receives tenant B's
message, because the chat router passes the raw `thread_id` and
`PostgresChatAdapter.list` filters only on `thread_id`, never on the stored
`tenant` column. -/
theorem tenant_cross_read_chat :
    (v1Handle (some ("Bearer k")) ("k") (some ("tenantB"))
        (.chatAppend ("t") ("user") ("b-secret") none)
        ⟨[], ⟨[], []⟩, ⟨[], []⟩, 0⟩).2 = .ok .okTrue
    ∧ (v1Handle (some ("Bearer k")) ("k") (some ("tenantB"))
        (.chatAppend ("t") ("user") ("b-secret") none)
        ⟨[], ⟨[], []⟩, ⟨[], []⟩, 0⟩).1.chat.messages
        = [⟨("t"), ("tenantB"), 0, ("user"), ("b-secret")⟩]
    ∧ v1Handle (some ("Bearer k")) ("k") (some ("tenantA")) (.chatList ("t") 50)
        ((v1Handle (some ("Bearer k")) ("k") (some ("tenantB"))
          (.chatAppend ("t") ("user") ("b-secret") none)
          ⟨[], ⟨[], []⟩, ⟨[], []⟩, 0⟩).1)
      = ((v1Handle (some ("Bearer k")) ("k") (some ("tenantB"))
          (.chatAppend ("t") ("user") ("b-secret") none)
          ⟨[], ⟨[], []⟩, ⟨[], []⟩, 0⟩).1,
         .ok (.chatMessages [⟨0, ("user"), ("b-secret")⟩])) := by
  refine ⟨rfl, rfl, ?_⟩
  rfl

lemma find?_filter_not {β : Type} (store : List (String × β)) (k : String) :
    (store.filter (fun p => !(p.1 == k))).find? (fun p => p.1 == k) = none := by
  rw [List.find?_eq_none]
  intro x hx
  have hmem := (List.mem_filter.mp hx).2
  simpa using hmem

lemma find?_map_modify {β : Type} (store : List (String × β)) (k : String) (g : β → β) :
    (store.map (fun p => if p.1 == k then (p.1, g p.2) else p)).find? (fun p => p.1 == k)
      = (store.find? (fun p => p.1 == k)).map (fun p => (p.1, g p.2)) := by
  rw [List.find?_map]
  have hcomp : ((fun p : String × β => p.1 == k) ∘ fun p : String × β =>
      if p.1 == k then (p.1, g p.2) else p) = fun p : String × β => p.1 == k := by
    funext p
    by_cases hp : p.1 = k
    · simp [Function.comp, hp]
    · simp [Function.comp, hp]
  rw [hcomp]
  cases hfind : store.find? (fun p => p.1 == k) with
  | none => simp
  | some u =>
    have hk : u.1 = k := by simpa using List.find?_some hfind
    simp [hk]

/-- C5: `truncate` diverges between the adapters.  The Postgres adapter
ignores `keep_last_n` and deletes the whole thread ("Simple impl: delete all
for now"): on a three-message thread, `truncate(keep_last_n=2)` removes all
three and returns 3, where the contract requires removing 1 and keeping the
2 most recent.  The Redis adapter conforms: it always leaves the
`keep_last_n` newest (head-of-list) messages and returns the number
removed. -/
theorem truncate_pg_deletes_all_redis_keeps_last :
    (PostgresChatAdapter.truncate
        ⟨[(("t"), ("x"))],
         [⟨("t"), ("x"), 0, ("u"), ("m0")⟩, ⟨("t"), ("x"), 1, ("u"), ("m1")⟩,
          ⟨("t"), ("x"), 2, ("u"), ("m2")⟩]⟩ ("t") 2).1 = 3
    ∧ ((PostgresChatAdapter.truncate
        ⟨[(("t"), ("x"))],
         [⟨("t"), ("x"), 0, ("u"), ("m0")⟩, ⟨("t"), ("x"), 1, ("u"), ("m1")⟩,
          ⟨("t"), ("x"), 2, ("u"), ("m2")⟩]⟩ ("t") 2).2.messages.filter
        (fun m => m.thread_id == ("t"))) = []
    ∧ ∀ (store : RedisChatKV) (tid : String) (keep : ℕ),
        chatMsgs (RedisChatAdapter.truncate store tid keep).2 tid
          = (chatMsgs store tid).take keep
        ∧ (RedisChatAdapter.truncate store tid keep).1
          = (chatMsgs store tid).length - ((chatMsgs store tid).take keep).length := by
  refine ⟨rfl, rfl, ?_⟩
  intro store tid keep
  by_cases h0 : keep = 0
  · subst h0
    constructor
    · show chatMsgs
        (store.filter (fun p => !(p.1 == chatKey tid))) tid = (chatMsgs store tid).take 0
      rw [List.take_zero]
      unfold chatMsgs
      rw [find?_filter_not]
      rfl
    · simp [RedisChatAdapter.truncate]
  · by_cases hlen : keep < (chatMsgs store tid).length
    · have hstep : RedisChatAdapter.truncate store tid keep
          = ((chatMsgs store tid).length - keep,
             store.map (fun p =>
               if p.1 == chatKey tid then (p.1, p.2.take keep) else p)) := by
        simp only [RedisChatAdapter.truncate]
        rw [if_neg h0, if_pos hlen]
      rw [hstep]
      constructor
      · simp only [chatMsgs, find?_map_modify]
        cases hfind : store.find? (fun p => p.1 == chatKey tid) with
        | none => simp
        | some u => simp
      · simp [List.length_take, Nat.min_def, le_of_lt hlen]
    · have hstep : RedisChatAdapter.truncate store tid keep = (0, store) := by
        simp only [RedisChatAdapter.truncate]
        rw [if_neg h0, if_neg hlen]
      rw [hstep]
      push_neg at hlen
      constructor
      · exact (List.take_of_length_le hlen).symm
      · simp [List.take_of_length_le hlen]

lemma ratSqrt_nat_sq (n : ℕ) : ratSqrt ((n : ℚ) * n) = n := by
  have h : ((n : ℚ) * n) = ((n * n : ℕ) : ℚ) := by push_cast; ring
  rw [h, ratSqrt, Rat.num_natCast, Rat.den_natCast, Int.toNat_natCast, Nat.sqrt_eq,
    Nat.sqrt_one]
  simp

lemma normL2_eval (a : List ℚ) (n : ℕ) (h : dotList a a = (n : ℚ) * n) : normL2 a = n := by
  rw [normL2, h, ratSqrt_nat_sq]

/-- C2: the pgvector query does not order by the collection's metric — it
always orders by the Euclidean operator `<->` while scoring with the cosine
operator `<=>`.  On a cosine collection holding `x = [100,0]` and
`y = [3/5,4/5]`, the query for `[1,0]` returns `y` (cosine similarity 3/5)
before `x` (cosine similarity 1): the result is not in descending
cosine-similarity order, and is not even sorted by its own returned
scores. -/
theorem pgvector_query_order_mismatch :
    PgVectorAdapter.query [⟨("x"), [100, 0], none⟩, ⟨("y"), [3/5, 4/5], none⟩] [1, 0] 2
      = [⟨("y"), 3/5, none⟩, ⟨("x"), 1, none⟩]
    ∧ cosine_similarity [1, 0] [100, 0] = 1
    ∧ cosine_similarity [1, 0] [3/5, 4/5] = 3/5
    ∧ ¬ List.Sorted (fun r s => s.score ≤ r.score)
        [(⟨("y"), 3/5, none⟩ : QueryResult), ⟨("x"), 1, none⟩] := by
  have hx : normL2 [(100 : ℚ), 0] = 100 := normL2_eval _ 100 (by norm_num [dotList])
  have hy : normL2 [(3 : ℚ)/5, 4/5] = 1 := by
    simpa using normL2_eval [(3 : ℚ)/5, 4/5] 1 (by norm_num [dotList])
  have hq : normL2 [(1 : ℚ), 0] = 1 := by
    simpa using normL2_eval [(1 : ℚ), 0] 1 (by norm_num [dotList])
  refine ⟨?_, ?_, ?_, ?_⟩
  · norm_num [PgVectorAdapter.query, List.insertionSort, List.orderedInsert, sqDist,
      pgCosDist, dotList, hx, hy, hq]
  · norm_num [cosine_similarity, dotList, hx, hq]
    exact ⟨by simp, by simp⟩
  · norm_num [cosine_similarity, dotList, hy, hq]
    exact ⟨by simp, by simp⟩
  · simp only [List.sorted_cons]
    norm_num

/-- C3 counterexample: with docs `a = [1,0,0]` and `b = [0,1,0]` stored and a
SCAN enumeration that yields `b`'s key first (both orders of a two-element
enumeration are possible, as Redis leaves SCAN order unspecified), a `k = 1`
query for `[1,0,0]` returns `b` with score 0 — not the top-1 over all
scanned candidates, which is `a` with score 1 (computed by the spec-side
`redisQuerySpecC3`): the code only scores the first `k` scanned keys. -/
theorem redis_query_not_topk_of_all :
    RedisVectorAdapter.query
        [(("c:doc:a"), ⟨[1, 0, 0], none⟩), (("c:doc:b"), ⟨[0, 1, 0], none⟩)]
        [("c:doc:b"), ("c:doc:a")] [1, 0, 0] 1
      = [⟨("b"), 0, none⟩]
    ∧ redisQuerySpecC3
        [(("c:doc:a"), ⟨[1, 0, 0], none⟩), (("c:doc:b"), ⟨[0, 1, 0], none⟩)]
        [("c:doc:b"), ("c:doc:a")] [1, 0, 0] 1
      = [⟨("a"), 1, none⟩]
    ∧ ([(⟨("b"), 0, none⟩ : QueryResult)] ≠ [⟨("a"), 1, none⟩]) := by
  have hq : normL2 [(1 : ℚ), 0, 0] = 1 := by
    simpa using normL2_eval [(1 : ℚ), 0, 0] 1 (by norm_num [dotList])
  have hb : normL2 [(0 : ℚ), 1, 0] = 1 := by
    simpa using normL2_eval [(0 : ℚ), 1, 0] 1 (by norm_num [dotList])
  have hcosb : cosine_similarity [1, 0, 0] [0, 1, 0] = 0 := by
    norm_num [cosine_similarity, dotList, hq, hb]
  have hcosa : cosine_similarity [1, 0, 0] [1, 0, 0] = 1 := by
    norm_num [cosine_similarity, dotList, hq]
    all_goals simp
  have hsega : lastColonSeg ("c:doc:a") = ("a") := by decide
  have hsegb : lastColonSeg ("c:doc:b") = ("b") := by decide
  refine ⟨?_, ?_, by simp⟩
  · simp [RedisVectorAdapter.query, sortByScoreDesc, List.insertionSort,
      List.orderedInsert, scoreKey, hgetall, List.find?, hsegb, hcosb]
  · norm_num [redisQuerySpecC3, sortByScoreDesc, List.insertionSort,
      List.orderedInsert, scoreKey, hgetall, List.find?, hsega, hsegb, hcosa, hcosb]

/-- C3 (amended): the Redis vector query scans all keys but scores only the
first `k` keys of the scan enumeration — its output is sorted by descending
score, has at most `k` entries, every entry is the scoring of one of the
first `k` scanned keys, and every present document among the first `k`
scanned keys appears in the output. -/
theorem redis_query_first_k_scan (store : RedisKV) (scanKeys : List String)
    (emb : List ℚ) (k : ℕ) :
    List.Sorted (fun r s => s.score ≤ r.score)
        (RedisVectorAdapter.query store scanKeys emb k)
    ∧ (RedisVectorAdapter.query store scanKeys emb k).length ≤ k
    ∧ ((RedisVectorAdapter.query store scanKeys emb k).all (fun r =>
        (scanKeys.take k).any (fun key => scoreKey store emb key == some r))) = true
    ∧ ((scanKeys.take k).all (fun key =>
        (scoreKey store emb key).all (fun r =>
          (RedisVectorAdapter.query store scanKeys emb k).contains r))) = true := by
  haveI htot : IsTotal QueryResult (fun r s => s.score ≤ r.score) :=
    ⟨fun a b => le_total b.score a.score⟩
  haveI htrans : IsTrans QueryResult (fun r s => s.score ≤ r.score) :=
    ⟨fun a b c h1 h2 => le_trans h2 h1⟩
  have hperm := List.perm_insertionSort (fun r s : QueryResult => s.score ≤ r.score)
    ((scanKeys.take k).filterMap (scoreKey store emb))
  refine ⟨?_, ?_, ?_, ?_⟩
  · exact List.Pairwise.sublist (List.take_sublist k _)
      (List.sorted_insertionSort (fun r s : QueryResult => s.score ≤ r.score) _)
  · exact List.length_take_le k _
  · rw [List.all_eq_true]
    intro r hr
    have hr2 : r ∈ sortByScoreDesc ((scanKeys.take k).filterMap (scoreKey store emb)) :=
      List.mem_of_mem_take hr
    have hr3 : r ∈ (scanKeys.take k).filterMap (scoreKey store emb) :=
      (hperm.mem_iff).mp hr2
    rcases List.mem_filterMap.mp hr3 with ⟨key, hkey, heq⟩
    rw [List.any_eq_true]
    exact ⟨key, hkey, by simp [heq]⟩
  · rw [List.all_eq_true]
    intro key hkey
    cases hsk : scoreKey store emb key with
    | none => simp
    | some r =>
      rw [Option.all_some]
      have hr : r ∈ (scanKeys.take k).filterMap (scoreKey store emb) :=
        List.mem_filterMap.mpr ⟨key, hkey, hsk⟩
      have hlen : (sortByScoreDesc ((scanKeys.take k).filterMap (scoreKey store emb))).length
          ≤ k := by
        rw [sortByScoreDesc, hperm.length_eq]
        exact le_trans (List.length_filterMap_le _ _) (List.length_take_le k _)
      have hq : RedisVectorAdapter.query store scanKeys emb k
          = sortByScoreDesc ((scanKeys.take k).filterMap (scoreKey store emb)) := by
        rw [RedisVectorAdapter.query, List.take_of_length_le hlen]
      rw [hq]
      exact List.elem_eq_true_of_mem ((hperm.mem_iff).mpr hr)

/-- C4 counterexample: upsert `a = [1,0,0]` and `b = [0,1,0]` into a fresh
collection through the Redis adapter, then query the exact embedding
`[1,0,0]` with `k = 1` under a SCAN enumeration that yields `b`'s key first
(Redis leaves the order unspecified): the result is `b` with score 0 — the
upserted item `a` is not among the top results at all, and no score ≈ 1.0 is
returned. -/
theorem roundtrip_fails_under_scan_order :
    RedisVectorAdapter.query
        (RedisVectorAdapter.upsert ("c")
          [⟨("a"), [1, 0, 0], none⟩, ⟨("b"), [0, 1, 0], none⟩] [])
        [("c:doc:b"), ("c:doc:a")] [1, 0, 0] 1
      = [⟨("b"), 0, none⟩]
    ∧ ((RedisVectorAdapter.query
        (RedisVectorAdapter.upsert ("c")
          [⟨("a"), [1, 0, 0], none⟩, ⟨("b"), [0, 1, 0], none⟩] [])
        [("c:doc:b"), ("c:doc:a")] [1, 0, 0] 1).all
        (fun r => !(r.id == ("a")))) = true := by
  have hsu : RedisVectorAdapter.upsert ("c")
      [⟨("a"), [1, 0, 0], none⟩, ⟨("b"), [0, 1, 0], none⟩] []
      = [(("c:doc:a"), ⟨[1, 0, 0], none⟩), (("c:doc:b"), ⟨[0, 1, 0], none⟩)] := by
    simp [RedisVectorAdapter.upsert, updateOn, docKey]
  have hq : normL2 [(1 : ℚ), 0, 0] = 1 := by
    simpa using normL2_eval [(1 : ℚ), 0, 0] 1 (by norm_num [dotList])
  have hb : normL2 [(0 : ℚ), 1, 0] = 1 := by
    simpa using normL2_eval [(0 : ℚ), 1, 0] 1 (by norm_num [dotList])
  have hcosb : cosine_similarity [1, 0, 0] [0, 1, 0] = 0 := by
    norm_num [cosine_similarity, dotList, hq, hb]
  have hsegb : lastColonSeg ("c:doc:b") = ("b") := by decide
  have h1 : RedisVectorAdapter.query
      (RedisVectorAdapter.upsert ("c")
        [⟨("a"), [1, 0, 0], none⟩, ⟨("b"), [0, 1, 0], none⟩] [])
      [("c:doc:b"), ("c:doc:a")] [1, 0, 0] 1 = [⟨("b"), 0, none⟩] := by
    rw [hsu]
    simp [RedisVectorAdapter.query, sortByScoreDesc, List.insertionSort,
      List.orderedInsert, scoreKey, hgetall, List.find?, hsegb, hcosb]
  refine ⟨h1, ?_⟩
  rw [h1]
  simp

/-- C4 (amended): the round-trip holds for the pgvector adapter on the
spec's concrete scenario (query the exact upserted embedding, get that id
with score exactly 1.0), and for the Redis adapter it holds exactly when the
upserted item's key falls among the first `k` keys of the SCAN enumeration:
with `a` scanned first the query returns `a` with score 1.0, with `b`
scanned first it returns `b` with score 0. -/
theorem roundtrip_amended :
    PgVectorAdapter.query
        (PgVectorAdapter.upsert []
          [⟨("a"), [1, 0, 0], none⟩, ⟨("b"), [0, 1, 0], none⟩]) [1, 0, 0] 1
      = [⟨("a"), 1, none⟩]
    ∧ RedisVectorAdapter.query
        (RedisVectorAdapter.upsert ("c")
          [⟨("a"), [1, 0, 0], none⟩, ⟨("b"), [0, 1, 0], none⟩] [])
        [("c:doc:a"), ("c:doc:b")] [1, 0, 0] 1
      = [⟨("a"), 1, none⟩]
    ∧ RedisVectorAdapter.query
        (RedisVectorAdapter.upsert ("c")
          [⟨("a"), [1, 0, 0], none⟩, ⟨("b"), [0, 1, 0], none⟩] [])
        [("c:doc:b"), ("c:doc:a")] [1, 0, 0] 1
      = [⟨("b"), 0, none⟩] := by
  have hq : normL2 [(1 : ℚ), 0, 0] = 1 := by
    simpa using normL2_eval [(1 : ℚ), 0, 0] 1 (by norm_num [dotList])
  have hb : normL2 [(0 : ℚ), 1, 0] = 1 := by
    simpa using normL2_eval [(0 : ℚ), 1, 0] 1 (by norm_num [dotList])
  have hcosa : cosine_similarity [1, 0, 0] [1, 0, 0] = 1 := by
    norm_num [cosine_similarity, dotList, hq]
    all_goals simp
  have hcosb : cosine_similarity [1, 0, 0] [0, 1, 0] = 0 := by
    norm_num [cosine_similarity, dotList, hq, hb]
  have hsega : lastColonSeg ("c:doc:a") = ("a") := by decide
  have hsegb : lastColonSeg ("c:doc:b") = ("b") := by decide
  have hsu : RedisVectorAdapter.upsert ("c")
      [⟨("a"), [1, 0, 0], none⟩, ⟨("b"), [0, 1, 0], none⟩] []
      = [(("c:doc:a"), ⟨[1, 0, 0], none⟩), (("c:doc:b"), ⟨[0, 1, 0], none⟩)] := by
    simp [RedisVectorAdapter.upsert, updateOn, docKey]
  refine ⟨?_, ?_, ?_⟩
  · have hpg : PgVectorAdapter.upsert []
        [⟨("a"), [1, 0, 0], none⟩, ⟨("b"), [0, 1, 0], none⟩]
        = [⟨("a"), [1, 0, 0], none⟩, ⟨("b"), [0, 1, 0], none⟩] := by
      simp [PgVectorAdapter.upsert, updateOn]
    rw [hpg]
    norm_num [PgVectorAdapter.query, List.insertionSort, List.orderedInsert, sqDist,
      pgCosDist, dotList, hq, hb]
  · rw [hsu]
    simp [RedisVectorAdapter.query, sortByScoreDesc, List.insertionSort,
      List.orderedInsert, scoreKey, hgetall, List.find?, hsega, hcosa]
  · rw [hsu]
    simp [RedisVectorAdapter.query, sortByScoreDesc, List.insertionSort,
      List.orderedInsert, scoreKey, hgetall, List.find?, hsegb, hcosb]

/-- C7 counterexample: `VectorQueryRequest.embedding` has no `min_length`
(schema/vector.py lines 12-16), so a query embedding of length 3 passes
validation, reaches the pgvector adapter and produces scored results — it is
not rejected at the boundary.  (Only upsert items are length-checked.) -/
theorem short_query_embedding_reaches_adapter :
    v1Handle (some ("Bearer k")) ("k") none (.vectorQuery ("docs") [2, 1, 2] 1)
        ⟨[(("public:docs"), ⟨3, ("vector_cosine_ops"), [⟨("a"), [1, 0, 0], none⟩]⟩)],
         ⟨[], []⟩, ⟨[], []⟩, 0⟩
      = (⟨[(("public:docs"), ⟨3, ("vector_cosine_ops"), [⟨("a"), [1, 0, 0], none⟩]⟩)],
          ⟨[], []⟩, ⟨[], []⟩, 0⟩,
         .ok (.vecResults [⟨("a"), 2/3, none⟩]))
    ∧ ([(2 : ℚ), 1, 2].length < 8) := by
  have hauth : require_api_key (some ("Bearer k")) ("k") = none := by decide
  have happ : ("public") ++ (":") ++ ("docs") = ("public:docs") := rfl
  have hq : normL2 [(1 : ℚ), 0, 0] = 1 := by
    simpa using normL2_eval [(1 : ℚ), 0, 0] 1 (by norm_num [dotList])
  have he : normL2 [(2 : ℚ), 1, 2] = 3 := by
    simpa using normL2_eval [(2 : ℚ), 1, 2] 3 (by norm_num [dotList])
  constructor
  · norm_num [v1Handle, hauth, validateBody, get_tenant_key, dispatch, lookupColl,
      happ, List.find?, PgVectorAdapter.query, List.insertionSort, List.orderedInsert,
      sqDist, pgCosDist, dotList, hq, he]
  · simp

/-- C7 (amended): upsert items with an embedding shorter than 8 are rejected
at the boundary with a 422 validation error before any adapter state change,
but query embeddings are never length-validated — `VectorQueryRequest` always
passes validation. -/
theorem embedding_min_length_upsert_only :
    (∀ (auth : Option String) (apiKey : String) (tenantHdr : Option String)
        (st : AppState) (c : String) (items : List VecItem),
        require_api_key auth apiKey = none →
        (items.any (fun i => i.embedding.length < 8)) = true →
        v1Handle auth apiKey tenantHdr (.vectorUpsert c items) st
          = (st, .error (422, ("embedding shorter than 8"))))
    ∧ ∀ (c : String) (emb : List ℚ) (k : ℕ),
        validateBody (.vectorQuery c emb k) = none := by
  constructor
  · intro auth apiKey tenantHdr st c items hauth hshort
    simp [v1Handle, hauth, validateBody, hshort]
  · intro c emb k
    rfl

/-- C7 witness: a length-3 upsert item is rejected 422 with the state
unchanged, while a length-3 query body passes validation. -/
theorem embedding_min_length_upsert_only_witness :
    v1Handle (some ("Bearer k")) ("k") none
        (.vectorUpsert ("docs") [⟨("a"), [1, 2, 3], none⟩])
        ⟨[], ⟨[], []⟩, ⟨[], []⟩, 0⟩
      = (⟨[], ⟨[], []⟩, ⟨[], []⟩, 0⟩, .error (422, ("embedding shorter than 8")))
    ∧ validateBody (.vectorQuery ("docs") [1, 2, 3] 5) = none :=
  ⟨embedding_min_length_upsert_only.1 (some ("Bearer k")) ("k") none
      ⟨[], ⟨[], []⟩, ⟨[], []⟩, 0⟩ ("docs") [⟨("a"), [1, 2, 3], none⟩]
      (by decide) (by decide),
   embedding_min_length_upsert_only.2 ("docs") [1, 2, 3] 5⟩
